import Mathlib

/-!
Verification of the image-cleaning subsystem of the `atmosphere` repository
(`service/imaging/clean.py`) and of `core/models/instance.py`, against the
repository's natural-language specification.

The cleaning entry points and the orchestrator `_perform_cleaning` are embedded
directly from `service/imaging/clean.py`.  The five FileOps primitives and the
mount check live in `service/imaging/common.py`, which is not part of the
source tree given here; those are modelled from the spec (sections 4.1 and 4.2)
and are marked `Modelled from the spec:` in their doc comments.

Filesystems are modelled as finite lists of files, each a path (list of
components, relative to the mount root) together with its content as a list of
lines.  Python exceptions are modelled as explicit error values carried in the
result record; a run that raises leaves the filesystem produced so far in the
record, so "raised before any mutation" is expressible.
-/

set_option autoImplicit false

namespace Atmosphere

/-- A path relative to the mount root, as a list of components. -/
abbrev Path := List String

/-- A file: its relative path and its content, line by line. -/
structure FsFile where
  path : Path
  lines : List String
deriving DecidableEq

/-- A filesystem under the mount root: a finite list of files. -/
abbrev Fs := List FsFile

/-- Split a character list into path components at `/`; the accumulator holds
the characters of the component currently being read. -/
def splitPathChars (acc : List Char) : List Char → Path
  | [] => [String.mk acc]
  | '/' :: cs => String.mk acc :: splitPathChars [] cs
  | c :: cs => splitPathChars (acc ++ [c]) cs

/-- Split a relative path string into components; the empty string denotes the
mount root itself (empty component list). -/
def splitPath (s : String) : Path :=
  if s = "" then [] else splitPathChars [] s.data

/-- Render a relative path back to a string. -/
def pathStr (p : Path) : String :=
  String.intercalate "/" p

/-- Join the mount root with a relative path string, as the primitives do when
they name their targets; joining with the empty string yields the root itself. -/
def joinPath (root : String) (rel : String) : String :=
  if rel = "" then root else root ++ "/" ++ rel

/-- Kleene-star loop: succeed at the current suffix via the continuation, or
consume one character allowed by `test` and try again further along. -/
def starLoop (k : List Char → Bool) (test : Char → Bool) : List Char → Bool
  | [] => k []
  | c :: cs => k (c :: cs) || (test c && starLoop k test cs)

/-- Shell-glob match of one pattern component against one path component:
`*` matches any (possibly empty) run of characters. -/
def globChars : List Char → List Char → Bool
  | [] => fun cs => cs.isEmpty
  | '*' :: ps => starLoop (globChars ps) (fun _ => true)
  | p :: ps => fun cs =>
    match cs with
    | [] => false
    | c :: cs => p == c && globChars ps cs

/-- Glob match of one pattern component against one path component. -/
def globComp (pat s : String) : Bool :=
  globChars pat.data s.data

/-- Glob match of a split pattern against a path of the same depth. -/
def globPath (pat : Path) (p : Path) : Bool :=
  pat.length == p.length && (List.zip pat p).all (fun ab => globComp ab.1 ab.2)

/-- A removal pattern hits a file when the entry the glob names is the file
itself or one of its ancestors (matched entries are deleted recursively). -/
def globPrefixHit (pat : String) (p : Path) : Bool :=
  let g := splitPath pat
  decide (g.length ≤ p.length) && globPath g (List.take g.length p)

/-- Atoms of the tiny regular-expression dialect the cleaning tables use:
literal characters, `.`, `$`, and `*` applied to a literal or to `.`. -/
inductive RAtom
  | lit (c : Char)
  | dot
  | dollar
  | starLit (c : Char)
  | starDot
deriving DecidableEq

/-- Parse a pattern string into regex atoms; `*` binds to the atom before it. -/
def parseRegex : List Char → List RAtom
  | [] => []
  | c :: '*' :: rest =>
    (if c = '.' then RAtom.starDot else RAtom.starLit c) :: parseRegex rest
  | '.' :: rest => RAtom.dot :: parseRegex rest
  | '$' :: rest => RAtom.dollar :: parseRegex rest
  | c :: rest => RAtom.lit c :: parseRegex rest

/-- Regex match of an atom list against a character list (anchored at both
ends; `$` additionally asserts end of string). -/
def rmatch : List RAtom → List Char → Bool
  | [] => fun cs => cs.isEmpty
  | RAtom.dollar :: ps => fun cs => cs.isEmpty && rmatch ps cs
  | RAtom.lit c :: ps => fun cs =>
    match cs with
    | [] => false
    | d :: cs => c == d && rmatch ps cs
  | RAtom.dot :: ps => fun cs =>
    match cs with
    | [] => false
    | _ :: cs => rmatch ps cs
  | RAtom.starLit c :: ps => starLoop (rmatch ps) (fun d => c == d)
  | RAtom.starDot :: ps => starLoop (rmatch ps) (fun _ => true)

/-- Modelled from the spec: line patterns are "treated as a regular-expression
match against the whole line" (section 4.2). -/
def lineMatches (pat : String) (line : String) : Bool :=
  rmatch (parseRegex pat.data) line.data

/-- Replace a line by the replacement when it matches the pattern, else keep it
(whole-line replace, spec section 4.2, replaceLineInFiles). -/
def substLine (pat rep : String) (l : String) : String :=
  if lineMatches pat l then rep else l

/-- Modelled from the spec: removeMultilineInFiles scans lines in order; a line
matching the start marker begins an inclusive deletion that ends at the first
line matching the end marker (inclusive); an unterminated range deletes through
end of file; multiple independent ranges are handled in one pass (section 4.2).
The flag records whether the scan is currently inside a range being deleted. -/
def cutLines (s e : String) : Bool → List String → List String
  | _, [] => []
  | true, l :: ls =>
    if lineMatches e l then cutLines s e false ls else cutLines s e true ls
  | false, l :: ls =>
    if lineMatches s l then cutLines s e true ls else l :: cutLines s e false ls

/-- Kinds of file operation, for the structured audit log (spec section 6). -/
inductive OpKind
  | removeOp
  | overwriteOp
  | removeLineOp
  | replaceLineOp
  | multilineOp
deriving DecidableEq

/-- One structured log line: operation kind, absolute target, dry-run flag. -/
structure LogEntry where
  op : OpKind
  target : String
  dry : Bool
deriving DecidableEq

/-- Output of one FileOps primitive: the filesystem afterwards, the audit log
emitted, and the non-fatal per-file failure warnings. -/
structure StepOut where
  fs : Fs
  log : List LogEntry
  warns : List String
deriving DecidableEq

/-- Modelled from the spec: MountGuard.isMounted queries the operating system's
mount table for an entry with the given path (section 4.1).  The mount table is
passed explicitly as the list of mounted paths. -/
def check_mounted (mounts : List String) (path : String) : Bool :=
  mounts.contains path

/-- True when some removal spec's glob names the file or one of its ancestors. -/
def rmHit (specs : List String) (p : Path) : Bool :=
  specs.any (fun s => globPrefixHit s p)

/-- Keep predicate of the wet removal stage: a hit survives only when the
per-file mutation fails (the path is in the broken set). -/
def rmKeep (specs : List String) (broken : List Path) (p : Path) : Bool :=
  !(rmHit specs p && !(broken.contains p))

/-- Modelled from the spec: removeFiles expands each glob under the root and
recursively deletes every matched entry; missing matches are not errors; in
dry-run it logs the resolved match set and deletes nothing (section 4.2).
Per-file failures (paths in `broken`) leave the file in place and produce a
warning instead of aborting the stage (section 4.3). -/
def remove_files (specs : List String) (root : String) (dry_run : Bool)
    (broken : List Path) (fs : Fs) : StepOut :=
  if dry_run then
    { fs := fs
      log := (fs.filter (fun f => rmHit specs f.path)).map
        (fun f => ⟨OpKind.removeOp, joinPath root (pathStr f.path), true⟩)
      warns := [] }
  else
    { fs := fs.filter (fun f => rmKeep specs broken f.path)
      log := (fs.filter (fun f => rmHit specs f.path && !(broken.contains f.path))).map
        (fun f => ⟨OpKind.removeOp, joinPath root (pathStr f.path), false⟩)
      warns := (fs.filter (fun f => rmHit specs f.path && broken.contains f.path)).map
        (fun f => "failed to remove " ++ joinPath root (pathStr f.path)) }

/-- One line-editing directive: the operation kind, the relative target path as
written in the cleaning table, and the transformation applied to the lines of
the target file. -/
structure EditSpec where
  op : OpKind
  rel : String
  tf : List String → List String

/-- Apply one line edit to one file: only the file at the target path changes,
and only when its mutation does not fail. -/
def editFile (t : Path) (tf : List String → List String) (broken : List Path)
    (f : FsFile) : FsFile :=
  if f.path = t ∧ f.path ∉ broken then ⟨f.path, tf f.lines⟩ else f

/-- Modelled from the spec: the shared engine of the four line-oriented
primitives.  Each directive targets one file; an absent target is a no-op; a
mutation is logged when it changes the file's content; in dry-run the intended
mutations are logged in order and nothing changes; a failing mutation yields a
warning and the remaining directives still execute (sections 4.2, 4.3, 6). -/
def runEdits : List EditSpec → String → Bool → List Path → Fs → StepOut
  | [], _, _, _, fs => { fs := fs, log := [], warns := [] }
  | e :: rest, root, dry, broken, fs =>
    let t := splitPath e.rel
    let wouldChange := fs.any (fun f => f.path == t && e.tf f.lines != f.lines)
    let isBroken := broken.contains t
    if dry then
      let l : List LogEntry :=
        if wouldChange then [⟨e.op, joinPath root e.rel, true⟩] else []
      let r := runEdits rest root dry broken fs
      { fs := fs, log := l ++ r.log, warns := r.warns }
    else
      let l : List LogEntry :=
        if wouldChange && !isBroken then [⟨e.op, joinPath root e.rel, false⟩] else []
      let w : List String :=
        if wouldChange && isBroken then ["failed to edit " ++ joinPath root e.rel] else []
      let r := runEdits rest root dry broken (fs.map (editFile t e.tf broken))
      { fs := r.fs, log := l ++ r.log, warns := w ++ r.warns }

/-- Modelled from the spec: overwriteFiles truncates each existing target file
to zero length; absent targets are no-ops (section 4.2). -/
def overwrite_files (specs : List String) (root : String) (dry_run : Bool)
    (broken : List Path) (fs : Fs) : StepOut :=
  runEdits (specs.map (fun s => ⟨OpKind.overwriteOp, s, fun _ => []⟩))
    root dry_run broken fs

/-- Modelled from the spec: removeLineInFiles drops every line of the target
file that matches the pattern (section 4.2). -/
def remove_line_in_files (specs : List (String × String)) (root : String)
    (dry_run : Bool) (broken : List Path) (fs : Fs) : StepOut :=
  runEdits (specs.map (fun pr =>
      ⟨OpKind.removeLineOp, pr.2, List.filter (fun l => !(lineMatches pr.1 l))⟩))
    root dry_run broken fs

/-- Modelled from the spec: replaceLineInFiles rewrites every matching line of
the target file to the replacement, verbatim (section 4.2). -/
def replace_line_in_files (specs : List (String × String × String))
    (root : String) (dry_run : Bool) (broken : List Path) (fs : Fs) : StepOut :=
  runEdits (specs.map (fun tr =>
      ⟨OpKind.replaceLineOp, tr.2.2, List.map (substLine tr.1 tr.2.1)⟩))
    root dry_run broken fs

/-- Modelled from the spec: removeMultilineInFiles deletes every inclusive
start/end sentinel range from the target file (section 4.2). -/
def remove_multiline_in_files (specs : List (String × String × String))
    (root : String) (dry_run : Bool) (broken : List Path) (fs : Fs) : StepOut :=
  runEdits (specs.map (fun tr =>
      ⟨OpKind.multilineOp, tr.2.2, cutLines tr.1 tr.2.1 false⟩))
    root dry_run broken fs

/-- One recorded invocation of a FileOps stage, with the spec list it was
handed (the observable call sequence of `_perform_cleaning`). -/
inductive StageCall
  | removeStage (specs : List String)
  | overwriteStage (specs : List String)
  | removeLineStage (specs : List (String × String))
  | replaceLineStage (specs : List (String × String × String))
  | multilineStage (specs : List (String × String × String))
deriving DecidableEq

/-- Errors a cleaning entry point can raise.  `notMounted` embeds the
`Exception("Expected a mounted path at %s")` raised by each entry point;
`typeError` embeds the `TypeError` Python raises when a tuple is called. -/
inductive RunError
  | notMounted (path : String)
  | typeError
deriving DecidableEq

/-- Result of a cleaning entry point: the filesystem after the call, the audit
log, the accumulated per-file warnings, the sequence of FileOps stage calls,
the exception raised if any, and the Python return value (the warning list, if
the function returned one to its caller). -/
structure CleanResult where
  fs : Fs
  log : List LogEntry
  warns : List String
  trace : List StageCall
  err : Option RunError
  pyret : Option (List String)
deriving DecidableEq

/-- Result of raising an exception before any stage ran: the filesystem is
untouched, nothing was logged, no stage was invoked. -/
def raisedResult (e : RunError) (fs : Fs) : CleanResult :=
  { fs := fs, log := [], warns := [], trace := [], err := some e, pyret := none }

/-- Embeds `_perform_cleaning` (clean.py lines 123-135): runs the five FileOps
stages in the fixed source order remove, overwrite, remove-line, replace-line,
remove-multiline, and returns `None` to its caller (it neither aggregates nor
returns the primitives' results). -/
def _perform_cleaning (mounted_path : String) (rm_files : List String)
    (remove_line_files : List (String × String)) (overwrite_list : List String)
    (replace_line_files : List (String × String × String))
    (multiline_delete_files : List (String × String × String))
    (dry_run : Bool) (broken : List Path) (fs : Fs) : CleanResult :=
  let s1 := remove_files rm_files mounted_path dry_run broken fs
  let s2 := overwrite_files overwrite_list mounted_path dry_run broken s1.fs
  let s3 := remove_line_in_files remove_line_files mounted_path dry_run broken s2.fs
  let s4 := replace_line_in_files replace_line_files mounted_path dry_run broken s3.fs
  let s5 := remove_multiline_in_files multiline_delete_files mounted_path dry_run broken s4.fs
  { fs := s5.fs
    log := s1.log ++ s2.log ++ s3.log ++ s4.log ++ s5.log
    warns := s1.warns ++ s2.warns ++ s3.warns ++ s4.warns ++ s5.warns
    trace := [StageCall.removeStage rm_files,
              StageCall.overwriteStage overwrite_list,
              StageCall.removeLineStage remove_line_files,
              StageCall.replaceLineStage replace_line_files,
              StageCall.multilineStage multiline_delete_files]
    err := none
    pyret := none }

/-- Embeds `remove_user_data` (clean.py lines 14-37): raises when the path is
not mounted, otherwise cleans with the user-data tables of the source. -/
def remove_user_data (mounts : List String) (mounted_path : String)
    (dry_run : Bool) (broken : List Path) (fs : Fs) : CleanResult :=
  if !(check_mounted mounts mounted_path) then
    raisedResult (RunError.notMounted mounted_path) fs
  else
    _perform_cleaning mounted_path
      ["home/*"]
      []
      [""]
      [("users:x:100:.*", "users:x:100:", "etc/group"),
       ("AllowGroups users root.*", "", "etc/ssh/sshd_config")]
      []
      dry_run broken fs

/-- Embeds `remove_atmo_data` (clean.py lines 40-81).  After the mount check
passes, the function builds its spec tables; the `multiline_delete_files` list
literal (lines 66-75) is missing a comma between the
`("## Atmosphere System", "## End Atmosphere System", "etc/ssh/sshd_config")`
tuple and the `(..., "etc/skel/.bashrc")` tuple, so Python parses the two as a
call of the first tuple and raises `TypeError: 'tuple' object is not callable`
while evaluating the literal — before `_perform_cleaning` is ever invoked.
The removal, overwrite and replace tables built before the raise (rc.local.atmo
and the atmo/puppet logs; the `.*vncserver$` and `.*shellinbaox.*` rc.local
replacements) are dead values; no stage runs and the filesystem is untouched. -/
def remove_atmo_data (mounts : List String) (mounted_path : String)
    (dry_run : Bool) (broken : List Path) (fs : Fs) : CleanResult :=
  if !(check_mounted mounts mounted_path) then
    raisedResult (RunError.notMounted mounted_path) fs
  else
    raisedResult RunError.typeError fs

/-- Embeds `remove_vm_specific_data` (clean.py lines 84-120): raises when the
path is not mounted, otherwise cleans with the VM-specific tables of the
source. -/
def remove_vm_specific_data (mounts : List String) (mounted_path : String)
    (dry_run : Bool) (broken : List Path) (fs : Fs) : CleanResult :=
  if !(check_mounted mounts mounted_path) then
    raisedResult (RunError.notMounted mounted_path) fs
  else
    _perform_cleaning mounted_path
      ["mnt/*", "tmp/*", "root/*", "dev/*", "proc/*"]
      []
      ["root/.bash_history", "var/log/auth.log",
       "var/log/boot.log", "var/log/daemon.log",
       "var/log/denyhosts.log", "var/log/dmesg",
       "var/log/secure", "var/log/messages",
       "var/log/lastlog", "var/log/cups/access_log",
       "var/log/cups/error_log", "var/log/syslog",
       "var/log/user.log", "var/log/wtmp",
       "var/log/apache2/access.log",
       "var/log/apache2/error.log",
       "var/log/yum.log"]
      []
      []
      dry_run broken fs

/-- True when `needle` starts `hay`. -/
def leadsChars : List Char → List Char → Bool
  | [], _ => true
  | _ :: _, [] => false
  | a :: as, b :: bs => a == b && leadsChars as bs

/-- True when `needle` occurs somewhere inside `hay` (the Python `in` test on
strings, used by `update_instance_metadata` on the exception message). -/
def subOccursChars : List Char → List Char → Bool
  | needle, [] => needle.isEmpty
  | needle, c :: cs => leadsChars needle (c :: cs) || subOccursChars needle cs

/-- String form of the substring test. -/
def subOccurs (needle hay : String) : Bool :=
  subOccursChars needle.data hay.data

/-- Metadata: string-keyed, string-valued pairs. -/
abbrev Metadata := List (String × String)

/-- Decidable equality on exception-or-value outcomes, for concrete checks. -/
instance exceptDecEq {ε α : Type} [DecidableEq ε] [DecidableEq α] :
    DecidableEq (Except ε α) := fun a b =>
  match a, b with
  | Except.ok x, Except.ok y =>
    if h : x = y then isTrue (by rw [h])
    else isFalse (by intro hc; cases hc; exact h rfl)
  | Except.error x, Except.error y =>
    if h : x = y then isTrue (by rw [h])
    else isFalse (by intro hc; cases hc; exact h rfl)
  | Except.ok _, Except.error _ => isFalse (by intro h; cases h)
  | Except.error _, Except.ok _ => isFalse (by intro h; cases h)


/-- The driver calls `update_instance_metadata` can make, in order. -/
inductive DriverCall
  | setServerName (n : String)
  | setMetadata (data : Metadata) (replace : Bool)
deriving DecidableEq

/-- The cloud connection as `update_instance_metadata` sees it: whether
`ex_set_metadata` exists at all, and the outcome of calling it (a metadata
dictionary, or an exception carrying its message). -/
structure Connection where
  has_ex_set_metadata : Bool
  ex_set_metadata_result : Except String Metadata

/-- Result of `update_instance_metadata`: the Python return value (or the
exception message it re-raises), and the driver calls it made, in order. -/
structure UpdateResult where
  ret : Except String Metadata
  calls : List DriverCall
deriving DecidableEq

/-- `data.get(k)`: the value at the key, if present. -/
def dataGet (data : Metadata) (k : String) : Option String :=
  (data.find? (fun kv => kv.1 == k)).map (fun kv => kv.2)

/-- Embeds `update_instance_metadata` (instance.py lines 180-199): returns `{}`
when the connection lacks `ex_set_metadata`; renames the server first when
`data.get('name')` is truthy (a non-empty string); then calls `ex_set_metadata`
and, if it raises, returns `{}` when the message contains the substring
`incapable of performing the request` and re-raises otherwise. -/
def update_instance_metadata (conn : Connection) (data : Metadata)
    (rep : Bool) : UpdateResult :=
  if !conn.has_ex_set_metadata then
    { ret := Except.ok [], calls := [] }
  else
    let renames : List DriverCall :=
      match dataGet data "name" with
      | some n => if n = "" then [] else [DriverCall.setServerName n]
      | none => []
    let calls := renames ++ [DriverCall.setMetadata data rep]
    match conn.ex_set_metadata_result with
    | Except.ok m => { ret := Except.ok m, calls := calls }
    | Except.error e =>
      if subOccurs "incapable of performing the request" e then
        { ret := Except.ok [], calls := calls }
      else
        { ret := Except.error e, calls := calls }

/-- The accumulated effect of a list of line edits on one file: each edit in
turn, left to right. -/
def applyEditsFile (es : List (Path × (List String → List String)))
    (broken : List Path) (f : FsFile) : FsFile :=
  es.foldl (fun g e => editFile e.1 e.2 broken g) f

/-- The line edits a cleaning plan induces, in the stage order of
`_perform_cleaning`: overwrite, remove-line, replace-line, remove-multiline. -/
def planEdits (ow : List String) (rl : List (String × String))
    (rp : List (String × String × String))
    (ml : List (String × String × String)) :
    List (Path × (List String → List String)) :=
  ow.map (fun s => (splitPath s, fun _ => []))
    ++ rl.map (fun pr => (splitPath pr.2, List.filter (fun l => !(lineMatches pr.1 l))))
    ++ rp.map (fun tr => (splitPath tr.2.2, List.map (substLine tr.1 tr.2.1)))
    ++ ml.map (fun tr => (splitPath tr.2.2, cutLines tr.1 tr.2.1 false))

lemma fsFile_path_mk (p : Path) (ls : List String) :
    (FsFile.mk p ls).path = p := rfl

lemma fsFile_lines_mk (p : Path) (ls : List String) :
    (FsFile.mk p ls).lines = ls := rfl

lemma editFile_path (t : Path) (tf : List String → List String)
    (broken : List Path) (f : FsFile) : (editFile t tf broken f).path = f.path := by
  unfold editFile
  split <;> rfl

lemma applyEditsFile_path (es : List (Path × (List String → List String)))
    (broken : List Path) (f : FsFile) :
    (applyEditsFile es broken f).path = f.path := by
  induction es generalizing f with
  | nil => rfl
  | cons e es ih =>
    show (applyEditsFile es broken (editFile e.1 e.2 broken f)).path = f.path
    rw [ih, editFile_path]

lemma applyEditsFile_append (es₁ es₂ : List (Path × (List String → List String)))
    (broken : List Path) (f : FsFile) :
    applyEditsFile (es₁ ++ es₂) broken f
      = applyEditsFile es₂ broken (applyEditsFile es₁ broken f) := by
  unfold applyEditsFile
  exact List.foldl_append _ _ _ _

lemma filter_map_pathPred (pred : Path → Bool) (g : FsFile → FsFile)
    (hg : ∀ f, (g f).path = f.path) (fs : Fs) :
    (fs.map g).filter (fun f => pred f.path)
      = (fs.filter (fun f => pred f.path)).map g := by
  induction fs with
  | nil => rfl
  | cons f fs ih =>
    by_cases h : pred f.path
    · simp [List.filter_cons, hg, h, ih]
    · simp [List.filter_cons, hg, h, ih]

lemma filter_pathPred_idem (pred : Path → Bool) (fs : Fs) :
    (fs.filter (fun f => pred f.path)).filter (fun f => pred f.path)
      = fs.filter (fun f => pred f.path) := by
  induction fs with
  | nil => rfl
  | cons f fs ih =>
    by_cases h : pred f.path
    · simp [List.filter_cons, h, ih]
    · simp [List.filter_cons, h, ih]

lemma editFile_comm (t t' : Path) (tf tf' : List String → List String)
    (broken : List Path) (f : FsFile) (h : t ≠ t') :
    editFile t tf broken (editFile t' tf' broken f)
      = editFile t' tf' broken (editFile t tf broken f) := by
  obtain ⟨p, ls⟩ := f
  unfold editFile
  simp only [fsFile_path_mk, fsFile_lines_mk]
  by_cases h1 : p = t ∧ p ∉ broken
  · have h2 : ¬(p = t' ∧ p ∉ broken) := by
      intro hc
      exact h (h1.1.symm.trans hc.1)
    rw [if_neg h2, if_pos h1]
    simp only [fsFile_path_mk, fsFile_lines_mk]
    rw [if_neg h2]
  · by_cases h2 : p = t' ∧ p ∉ broken
    · rw [if_pos h2, if_neg h1]
      simp only [fsFile_path_mk, fsFile_lines_mk, if_neg h1, if_pos h2]
    · rw [if_neg h1, if_neg h2]
      rw [if_neg h1]

lemma editFile_idem (t : Path) (tf : List String → List String)
    (broken : List Path) (f : FsFile)
    (htf : ∀ ls, tf (tf ls) = tf ls) :
    editFile t tf broken (editFile t tf broken f) = editFile t tf broken f := by
  obtain ⟨p, ls⟩ := f
  unfold editFile
  simp only [fsFile_path_mk, fsFile_lines_mk]
  by_cases h : p = t ∧ p ∉ broken
  · rw [if_pos h]
    simp only [fsFile_path_mk, fsFile_lines_mk]
    rw [if_pos h, htf]
  · rw [if_neg h]
    simp only [fsFile_path_mk, fsFile_lines_mk]
    rw [if_neg h]

lemma editFile_applyEdits_comm (t : Path) (tf : List String → List String)
    (es : List (Path × (List String → List String))) (broken : List Path)
    (f : FsFile) (h : ∀ e ∈ es, t ≠ e.1) :
    editFile t tf broken (applyEditsFile es broken f)
      = applyEditsFile es broken (editFile t tf broken f) := by
  induction es generalizing f with
  | nil => rfl
  | cons e es ih =>
    show editFile t tf broken (applyEditsFile es broken (editFile e.1 e.2 broken f))
      = applyEditsFile es broken (editFile e.1 e.2 broken (editFile t tf broken f))
    rw [ih _ (fun x hx => h x (List.mem_cons_of_mem _ hx)),
        editFile_comm _ _ _ _ _ _ (h e (List.mem_cons_self _ _))]

lemma applyEditsFile_idem (es : List (Path × (List String → List String)))
    (broken : List Path) (f : FsFile)
    (hdist : es.Pairwise (fun a b => a.1 ≠ b.1))
    (hidem : ∀ e ∈ es, ∀ ls, e.2 (e.2 ls) = e.2 ls) :
    applyEditsFile es broken (applyEditsFile es broken f)
      = applyEditsFile es broken f := by
  induction es generalizing f with
  | nil => rfl
  | cons e es ih =>
    have hd := List.pairwise_cons.mp hdist
    show applyEditsFile es broken (editFile e.1 e.2 broken
        (applyEditsFile es broken (editFile e.1 e.2 broken f)))
      = applyEditsFile es broken (editFile e.1 e.2 broken f)
    rw [editFile_applyEdits_comm _ _ _ _ _ hd.1,
        ih _ hd.2 (fun x hx => hidem x (List.mem_cons_of_mem _ hx)),
        editFile_idem _ _ _ _ (hidem e (List.mem_cons_self _ _))]

lemma runEdits_fs (es : List EditSpec) (root : String) (dry : Bool)
    (broken : List Path) (fs : Fs) :
    (runEdits es root dry broken fs).fs
      = if dry then fs
        else fs.map (applyEditsFile (es.map (fun e => (splitPath e.rel, e.tf))) broken) := by
  induction es generalizing fs with
  | nil =>
    cases dry with
    | true => rfl
    | false =>
      show fs = fs.map (applyEditsFile [] broken)
      have hA : applyEditsFile ([] : List (Path × (List String → List String))) broken = id :=
        funext fun _ => rfl
      rw [hA, List.map_id]
  | cons e es ih =>
    cases dry with
    | true => rfl
    | false =>
      show (runEdits es root false broken
          (fs.map (editFile (splitPath e.rel) e.tf broken))).fs
        = fs.map (applyEditsFile ((e :: es).map (fun x => (splitPath x.rel, x.tf))) broken)
      rw [ih]
      simp only [Bool.false_eq_true, if_false, List.map_map, List.map_cons]
      rfl

lemma overwrite_files_fs (specs : List String) (root : String) (dry : Bool)
    (broken : List Path) (fs : Fs) :
    (overwrite_files specs root dry broken fs).fs
      = if dry then fs
        else fs.map (applyEditsFile (planEdits specs [] [] []) broken) := by
  unfold overwrite_files
  rw [runEdits_fs]
  cases dry with
  | true => rfl
  | false =>
    simp only [Bool.false_eq_true, if_false, planEdits, List.map_map, List.map_nil,
      List.append_nil, List.nil_append]
    rfl

lemma remove_line_in_files_fs (specs : List (String × String)) (root : String)
    (dry : Bool) (broken : List Path) (fs : Fs) :
    (remove_line_in_files specs root dry broken fs).fs
      = if dry then fs
        else fs.map (applyEditsFile (planEdits [] specs [] []) broken) := by
  unfold remove_line_in_files
  rw [runEdits_fs]
  cases dry with
  | true => rfl
  | false =>
    simp only [Bool.false_eq_true, if_false, planEdits, List.map_map, List.map_nil,
      List.append_nil, List.nil_append]
    rfl

lemma replace_line_in_files_fs (specs : List (String × String × String))
    (root : String) (dry : Bool) (broken : List Path) (fs : Fs) :
    (replace_line_in_files specs root dry broken fs).fs
      = if dry then fs
        else fs.map (applyEditsFile (planEdits [] [] specs []) broken) := by
  unfold replace_line_in_files
  rw [runEdits_fs]
  cases dry with
  | true => rfl
  | false =>
    simp only [Bool.false_eq_true, if_false, planEdits, List.map_map, List.map_nil,
      List.append_nil, List.nil_append]
    rfl

lemma remove_multiline_in_files_fs (specs : List (String × String × String))
    (root : String) (dry : Bool) (broken : List Path) (fs : Fs) :
    (remove_multiline_in_files specs root dry broken fs).fs
      = if dry then fs
        else fs.map (applyEditsFile (planEdits [] [] [] specs) broken) := by
  unfold remove_multiline_in_files
  rw [runEdits_fs]
  cases dry with
  | true => rfl
  | false =>
    simp only [Bool.false_eq_true, if_false, planEdits, List.map_map, List.map_nil,
      List.append_nil, List.nil_append]
    rfl

lemma remove_files_fs (specs : List String) (root : String) (dry : Bool)
    (broken : List Path) (fs : Fs) :
    (remove_files specs root dry broken fs).fs
      = if dry then fs else fs.filter (fun f => rmKeep specs broken f.path) := by
  unfold remove_files
  cases dry <;> rfl

lemma perform_fs_dry (root : String) (rm : List String)
    (rl : List (String × String)) (ow : List String)
    (rp ml : List (String × String × String)) (broken : List Path) (fs : Fs) :
    (_perform_cleaning root rm rl ow rp ml true broken fs).fs = fs := by
  show (remove_multiline_in_files ml root true broken
    (replace_line_in_files rp root true broken
      (remove_line_in_files rl root true broken
        (overwrite_files ow root true broken
          (remove_files rm root true broken fs).fs).fs).fs).fs).fs = fs
  rw [remove_files_fs, overwrite_files_fs, remove_line_in_files_fs,
      replace_line_in_files_fs, remove_multiline_in_files_fs]
  rfl

lemma applyEditsFile_planEdits (ow : List String) (rl : List (String × String))
    (rp ml : List (String × String × String)) (broken : List Path) (f : FsFile) :
    applyEditsFile (planEdits ow rl rp ml) broken f
      = applyEditsFile (planEdits [] [] [] ml) broken
          (applyEditsFile (planEdits [] [] rp []) broken
            (applyEditsFile (planEdits [] rl [] []) broken
              (applyEditsFile (planEdits ow [] [] []) broken f))) := by
  simp only [planEdits, List.map_nil, List.append_nil, List.nil_append,
    applyEditsFile_append]

lemma perform_fs_wet (root : String) (rm : List String)
    (rl : List (String × String)) (ow : List String)
    (rp ml : List (String × String × String)) (broken : List Path) (fs : Fs) :
    (_perform_cleaning root rm rl ow rp ml false broken fs).fs
      = (fs.filter (fun f => rmKeep rm broken f.path)).map
          (applyEditsFile (planEdits ow rl rp ml) broken) := by
  show (remove_multiline_in_files ml root false broken
    (replace_line_in_files rp root false broken
      (remove_line_in_files rl root false broken
        (overwrite_files ow root false broken
          (remove_files rm root false broken fs).fs).fs).fs).fs).fs = _
  rw [remove_files_fs, overwrite_files_fs, remove_line_in_files_fs,
      replace_line_in_files_fs, remove_multiline_in_files_fs]
  simp only [Bool.false_eq_true, if_false, List.map_map]
  apply List.map_congr_left
  intro f _
  rw [applyEditsFile_planEdits ow rl rp ml broken f]
  rfl

lemma substLine_idem (pat rep l : String) :
    substLine pat rep (substLine pat rep l) = substLine pat rep l := by
  unfold substLine
  by_cases h : lineMatches pat l
  · rw [if_pos h]
    by_cases h2 : lineMatches pat rep
    · rw [if_pos h2]
    · rw [if_neg h2]
  · rw [if_neg h]
    rw [if_neg h]

lemma map_substLine_idem (pat rep : String) (ls : List String) :
    List.map (substLine pat rep) (List.map (substLine pat rep) ls)
      = List.map (substLine pat rep) ls := by
  induction ls with
  | nil => rfl
  | cons l ls ih => simp [substLine_idem, ih]

lemma filter_lines_idem (p : String → Bool) (ls : List String) :
    List.filter p (List.filter p ls) = List.filter p ls := by
  induction ls with
  | nil => rfl
  | cons l ls ih =>
    by_cases h : p l
    · simp [List.filter_cons, h, ih]
    · simp [List.filter_cons, h, ih]

lemma cutLines_no_start (s e : String) (m : Bool) (ls : List String) :
    ∀ l ∈ cutLines s e m ls, ¬(lineMatches s l = true) := by
  induction ls generalizing m with
  | nil =>
    intro l hl
    cases m <;> simp [cutLines] at hl
  | cons a ls ih =>
    intro l hl
    cases m with
    | true =>
      rw [cutLines] at hl
      by_cases h : lineMatches e a
      · rw [if_pos h] at hl
        exact ih false l hl
      · rw [if_neg h] at hl
        exact ih true l hl
    | false =>
      rw [cutLines] at hl
      by_cases h : lineMatches s a
      · rw [if_pos h] at hl
        exact ih true l hl
      · rw [if_neg h] at hl
        rcases List.mem_cons.mp hl with rfl | hl'
        · exact fun hc => (by rw [hc] at h; exact h rfl)
        · exact ih false l hl'

lemma cutLines_of_no_start (s e : String) (ls : List String)
    (h : ∀ l ∈ ls, ¬(lineMatches s l = true)) :
    cutLines s e false ls = ls := by
  induction ls with
  | nil => rfl
  | cons a ls ih =>
    rw [cutLines]
    have ha : ¬(lineMatches s a = true) := h a (List.mem_cons_self _ _)
    rw [if_neg ha]
    rw [ih (fun l hl => h l (List.mem_cons_of_mem _ hl))]

lemma cutLines_idem (s e : String) (ls : List String) :
    cutLines s e false (cutLines s e false ls) = cutLines s e false ls :=
  cutLines_of_no_start s e _ (cutLines_no_start s e false ls)

lemma perform_err (root : String) (rm : List String)
    (rl : List (String × String)) (ow : List String)
    (rp ml : List (String × String × String)) (dry : Bool)
    (broken : List Path) (fs : Fs) :
    (_perform_cleaning root rm rl ow rp ml dry broken fs).err = none := rfl

lemma perform_pyret (root : String) (rm : List String)
    (rl : List (String × String)) (ow : List String)
    (rp ml : List (String × String × String)) (dry : Bool)
    (broken : List Path) (fs : Fs) :
    (_perform_cleaning root rm rl ow rp ml dry broken fs).pyret = none := rfl

lemma perform_trace (root : String) (rm : List String)
    (rl : List (String × String)) (ow : List String)
    (rp ml : List (String × String × String)) (dry : Bool)
    (broken : List Path) (fs : Fs) :
    (_perform_cleaning root rm rl ow rp ml dry broken fs).trace
      = [StageCall.removeStage rm, StageCall.overwriteStage ow,
         StageCall.removeLineStage rl, StageCall.replaceLineStage rp,
         StageCall.multilineStage ml] := rfl

lemma perform_fs_wet_idem (root : String) (rm : List String)
    (rl : List (String × String)) (ow : List String)
    (rp ml : List (String × String × String)) (broken : List Path) (fs : Fs)
    (hdist : (planEdits ow rl rp ml).Pairwise (fun a b => a.1 ≠ b.1))
    (hidem : ∀ ed ∈ planEdits ow rl rp ml, ∀ ls, ed.2 (ed.2 ls) = ed.2 ls) :
    (_perform_cleaning root rm rl ow rp ml false broken
        ((_perform_cleaning root rm rl ow rp ml false broken fs).fs)).fs
      = (_perform_cleaning root rm rl ow rp ml false broken fs).fs := by
  rw [perform_fs_wet, perform_fs_wet,
      filter_map_pathPred _ _ (applyEditsFile_path _ broken),
      filter_pathPred_idem, List.map_map]
  apply List.map_congr_left
  intro f _
  exact applyEditsFile_idem _ broken f hdist hidem

lemma planEdits_tf_idem (ow : List String) (rl : List (String × String))
    (rp ml : List (String × String × String)) :
    ∀ ed ∈ planEdits ow rl rp ml, ∀ ls, ed.2 (ed.2 ls) = ed.2 ls := by
  intro ed hed ls
  simp only [planEdits, List.mem_append, List.mem_map] at hed
  rcases hed with ((⟨s, _, rfl⟩ | ⟨pr, _, rfl⟩) | ⟨tr, _, rfl⟩) | ⟨tr, _, rfl⟩
  · rfl
  · exact filter_lines_idem _ ls
  · exact map_substLine_idem _ _ ls
  · exact cutLines_idem _ _ ls

/-- C1: the claim says `remove_atmo_data` deletes the sentinel-bounded blocks
from etc/sudoers, etc/ssh/sshd_config and etc/skel/.bashrc, and that the
example file reduces to the single line `keep`.  On the code this fails: on a
mounted root the function raises `TypeError` (missing comma in the
`multiline_delete_files` literal, clean.py lines 71-74) before any stage runs,
leaving the example file untouched — even though the range-delete primitive,
applied directly with the sudoers sentinel spec, does reduce the file to
`keep`. -/
theorem c1_remove_atmo_data_sentinel_blocks_not_deleted :
    (remove_atmo_data ["/mnt/img"] "/mnt/img" false []
        [⟨["etc", "sudoers"],
          ["## Atmosphere System", "foo", "bar", "# End Nagios", "keep"]⟩]).err
      = some RunError.typeError
    ∧ (remove_atmo_data ["/mnt/img"] "/mnt/img" false []
        [⟨["etc", "sudoers"],
          ["## Atmosphere System", "foo", "bar", "# End Nagios", "keep"]⟩]).fs
      = [⟨["etc", "sudoers"],
          ["## Atmosphere System", "foo", "bar", "# End Nagios", "keep"]⟩]
    ∧ (remove_multiline_in_files
        [("## Atmosphere System", "# End Nagios", "etc/sudoers")]
        "/mnt/img" false []
        [⟨["etc", "sudoers"],
          ["## Atmosphere System", "foo", "bar", "# End Nagios", "keep"]⟩]).fs
      = [⟨["etc", "sudoers"], ["keep"]⟩] := by
  decide

/-- C2: for every path on which the mount check returns false, each of the
three public cleaning entry points raises the not-mounted exception and
performs zero filesystem mutations (the result is exactly the untouched
filesystem with an empty log, empty warning list, and no stage invoked). -/
theorem c2_unmounted_raises_and_mutates_nothing (mounts : List String)
    (root : String) (dry : Bool) (broken : List Path) (fs : Fs)
    (h : check_mounted mounts root = false) :
    remove_user_data mounts root dry broken fs
        = raisedResult (RunError.notMounted root) fs
      ∧ remove_atmo_data mounts root dry broken fs
        = raisedResult (RunError.notMounted root) fs
      ∧ remove_vm_specific_data mounts root dry broken fs
        = raisedResult (RunError.notMounted root) fs := by
  refine ⟨?_, ?_, ?_⟩ <;>
    simp [remove_user_data, remove_atmo_data, remove_vm_specific_data, h]

/-- Witness for C2 at a concrete unmounted path and a concrete filesystem. -/
theorem c2_unmounted_raises_and_mutates_nothing_witness :
    check_mounted [] "/mnt/img" = false
      ∧ (remove_user_data [] "/mnt/img" false [] [⟨["a"], ["x"]⟩]
            = raisedResult (RunError.notMounted "/mnt/img") [⟨["a"], ["x"]⟩]
          ∧ remove_atmo_data [] "/mnt/img" false [] [⟨["a"], ["x"]⟩]
            = raisedResult (RunError.notMounted "/mnt/img") [⟨["a"], ["x"]⟩]
          ∧ remove_vm_specific_data [] "/mnt/img" false [] [⟨["a"], ["x"]⟩]
            = raisedResult (RunError.notMounted "/mnt/img") [⟨["a"], ["x"]⟩]) :=
  ⟨by decide,
   c2_unmounted_raises_and_mutates_nothing [] "/mnt/img" false [] [⟨["a"], ["x"]⟩]
     (by decide)⟩

/-- C3: the claim says every profile in dry-run mode produces a non-empty log
and changes nothing.  On the code this fails for `remove_atmo_data`: even with
`dry_run=True` on a mounted root it raises `TypeError` (the missing comma,
clean.py lines 71-74) before any primitive runs, so its log is empty — no
intended operation is ever reported (the filesystem is indeed unchanged, but
only because the function dies first). -/
theorem c3_dry_run_remove_atmo_data_raises_with_empty_log :
    (remove_atmo_data ["/mnt/img"] "/mnt/img" true []
        [⟨["etc", "rc.local"], ["launch stuff"]⟩]).err = some RunError.typeError
      ∧ (remove_atmo_data ["/mnt/img"] "/mnt/img" true []
          [⟨["etc", "rc.local"], ["launch stuff"]⟩]).log = []
      ∧ (remove_atmo_data ["/mnt/img"] "/mnt/img" true []
          [⟨["etc", "rc.local"], ["launch stuff"]⟩]).fs
        = [⟨["etc", "rc.local"], ["launch stuff"]⟩] := by
  decide

/-- C4: the claim says every profile, once the mount check passes, executes the
five FileOps stages in the fixed order.  On the code this fails for
`remove_atmo_data`: the mount check passes and then no stage at all is invoked
(the `TypeError` from the missing comma fires first), while the orchestrator
`_perform_cleaning` itself — shown here on the same mounted root — does invoke
the five stages in the fixed source order. -/
theorem c4_atmo_profile_never_reaches_fixed_stage_order :
    (remove_atmo_data ["/mnt/img"] "/mnt/img" false [] []).trace = []
      ∧ (remove_atmo_data ["/mnt/img"] "/mnt/img" false [] []).err
        = some RunError.typeError
      ∧ (_perform_cleaning "/mnt/img" ["a/*"] [] ["b"] [] [] false [] []).trace
        = [StageCall.removeStage ["a/*"], StageCall.overwriteStage ["b"],
           StageCall.removeLineStage [], StageCall.replaceLineStage [],
           StageCall.multilineStage []] := by
  decide

/-- C5: the claim says `remove_atmo_data` blanks every etc/rc.local line that
launches the VNC server or the shellinabox launcher.  On the code this fails
twice over: the function raises `TypeError` before its replace stage can run
(missing comma, clean.py lines 71-74), and even the replace table it builds
spells the second pattern `.*shellinbaox.*` (clean.py line 64), which does not
match a real `shellinaboxd` launch line — applying the replace primitive with
the code's own patterns blanks the vncserver line but leaves the shellinabox
line intact. -/
theorem c5_rc_local_vnc_shellinabox_not_blanked :
    (remove_atmo_data ["/mnt/img"] "/mnt/img" false []
        [⟨["etc", "rc.local"],
          ["/usr/bin/vncserver", "nohup shellinaboxd -b &", "exit 0"]⟩]).err
      = some RunError.typeError
    ∧ (remove_atmo_data ["/mnt/img"] "/mnt/img" false []
        [⟨["etc", "rc.local"],
          ["/usr/bin/vncserver", "nohup shellinaboxd -b &", "exit 0"]⟩]).fs
      = [⟨["etc", "rc.local"],
          ["/usr/bin/vncserver", "nohup shellinaboxd -b &", "exit 0"]⟩]
    ∧ (replace_line_in_files
        [(".*vncserver$", "", "etc/rc.local"), (".*shellinbaox.*", "", "etc/rc.local")]
        "/mnt/img" false []
        [⟨["etc", "rc.local"],
          ["/usr/bin/vncserver", "nohup shellinaboxd -b &", "exit 0"]⟩]).fs
      = [⟨["etc", "rc.local"], ["", "nohup shellinaboxd -b &", "exit 0"]⟩] := by
  decide

lemma user_plan_distinct :
    (planEdits [""] []
        [("users:x:100:.*", "users:x:100:", "etc/group"),
         ("AllowGroups users root.*", "", "etc/ssh/sshd_config")] []).Pairwise
      (fun a b => a.1 ≠ b.1) :=
  List.pairwise_map.mp (by decide)

lemma vm_plan_distinct :
    (planEdits
        ["root/.bash_history", "var/log/auth.log",
         "var/log/boot.log", "var/log/daemon.log",
         "var/log/denyhosts.log", "var/log/dmesg",
         "var/log/secure", "var/log/messages",
         "var/log/lastlog", "var/log/cups/access_log",
         "var/log/cups/error_log", "var/log/syslog",
         "var/log/user.log", "var/log/wtmp",
         "var/log/apache2/access.log",
         "var/log/apache2/error.log",
         "var/log/yum.log"] [] [] []).Pairwise (fun a b => a.1 ≠ b.1) :=
  List.pairwise_map.mp (by decide)

/-- C6: for every profile and every mounted root, running the profile twice in
succession yields the same filesystem after the second run as after the first,
and the second run raises exactly the same exception (if any) as the first —
in particular no new error arises because targets were already removed (the
modelled primitives treat absent targets as no-ops and never raise for them). -/
theorem c6_profiles_idempotent (mounts : List String) (root : String)
    (dry : Bool) (broken : List Path) (fs : Fs)
    (h : check_mounted mounts root = true) :
    ((remove_user_data mounts root dry broken
        (remove_user_data mounts root dry broken fs).fs).fs
          = (remove_user_data mounts root dry broken fs).fs
      ∧ (remove_user_data mounts root dry broken
          (remove_user_data mounts root dry broken fs).fs).err
          = (remove_user_data mounts root dry broken fs).err)
    ∧ ((remove_atmo_data mounts root dry broken
          (remove_atmo_data mounts root dry broken fs).fs).fs
            = (remove_atmo_data mounts root dry broken fs).fs
        ∧ (remove_atmo_data mounts root dry broken
            (remove_atmo_data mounts root dry broken fs).fs).err
            = (remove_atmo_data mounts root dry broken fs).err)
    ∧ ((remove_vm_specific_data mounts root dry broken
          (remove_vm_specific_data mounts root dry broken fs).fs).fs
            = (remove_vm_specific_data mounts root dry broken fs).fs
        ∧ (remove_vm_specific_data mounts root dry broken
            (remove_vm_specific_data mounts root dry broken fs).fs).err
            = (remove_vm_specific_data mounts root dry broken fs).err) := by
  have hb : (!(check_mounted mounts root)) = false := by rw [h]; rfl
  refine ⟨?_, ?_, ?_⟩
  · simp only [remove_user_data, hb, Bool.false_eq_true, if_false]
    cases dry with
    | true =>
      rw [perform_fs_dry, perform_fs_dry]
      exact ⟨rfl, by simp only [perform_err]⟩
    | false =>
      refine ⟨?_, by simp only [perform_err]⟩
      exact perform_fs_wet_idem root _ _ _ _ _ broken fs user_plan_distinct
        (planEdits_tf_idem _ _ _ _)
  · simp only [remove_atmo_data, hb, Bool.false_eq_true, if_false]
    exact ⟨rfl, rfl⟩
  · simp only [remove_vm_specific_data, hb, Bool.false_eq_true, if_false]
    cases dry with
    | true =>
      rw [perform_fs_dry, perform_fs_dry]
      exact ⟨rfl, by simp only [perform_err]⟩
    | false =>
      refine ⟨?_, by simp only [perform_err]⟩
      exact perform_fs_wet_idem root _ _ _ _ _ broken fs vm_plan_distinct
        (planEdits_tf_idem _ _ _ _)

/-- Witness for C6 at a concrete mounted root and filesystem: the user-data
profile applied twice leaves the filesystem of the first run unchanged. -/
theorem c6_profiles_idempotent_witness :
    (remove_user_data ["/mnt/img"] "/mnt/img" false []
        (remove_user_data ["/mnt/img"] "/mnt/img" false []
          [⟨["home", "u", "f"], ["data"]⟩]).fs).fs
      = (remove_user_data ["/mnt/img"] "/mnt/img" false []
          [⟨["home", "u", "f"], ["data"]⟩]).fs :=
  (c6_profiles_idempotent ["/mnt/img"] "/mnt/img" false []
    [⟨["home", "u", "f"], ["data"]⟩] (by decide)).1.1

/-- C7 counterexample: a per-file mutation failure (overwriting var/log/dmesg
is denied) does not stop the run — the other overwrite target var/log/syslog is
still truncated and the run finishes without raising — but the orchestrator
returns `None` to its caller: the failure is recorded only in the primitives'
internal warning list, which `_perform_cleaning` neither aggregates nor
returns, refuting the claim that failures are returned to the caller as a
warning list. -/
theorem c7_counterexample_failures_not_returned_to_caller :
    (remove_vm_specific_data ["/mnt/img"] "/mnt/img" false
        [["var", "log", "dmesg"]]
        [⟨["var", "log", "dmesg"], ["old boot messages"]⟩,
         ⟨["var", "log", "syslog"], ["old syslog"]⟩]).warns ≠ []
      ∧ (remove_vm_specific_data ["/mnt/img"] "/mnt/img" false
          [["var", "log", "dmesg"]]
          [⟨["var", "log", "dmesg"], ["old boot messages"]⟩,
           ⟨["var", "log", "syslog"], ["old syslog"]⟩]).pyret = none
      ∧ (remove_vm_specific_data ["/mnt/img"] "/mnt/img" false
          [["var", "log", "dmesg"]]
          [⟨["var", "log", "dmesg"], ["old boot messages"]⟩,
           ⟨["var", "log", "syslog"], ["old syslog"]⟩]).err = none
      ∧ (remove_vm_specific_data ["/mnt/img"] "/mnt/img" false
          [["var", "log", "dmesg"]]
          [⟨["var", "log", "dmesg"], ["old boot messages"]⟩,
           ⟨["var", "log", "syslog"], ["old syslog"]⟩]).fs
        = [⟨["var", "log", "dmesg"], ["old boot messages"]⟩,
           ⟨["var", "log", "syslog"], []⟩] := by
  decide

/-- C7 as amended: per-file failures never abort the run — for any set of
failing paths the VM-specific profile completes without raising and every one
of its five stages is still invoked, in order — but the orchestrator returns
`None`: no warning list reaches the caller. -/
theorem c7_run_completes_but_returns_none (mounts : List String)
    (root : String) (broken : List Path) (fs : Fs)
    (h : check_mounted mounts root = true) :
    (remove_vm_specific_data mounts root false broken fs).err = none
      ∧ (remove_vm_specific_data mounts root false broken fs).pyret = none
      ∧ (remove_vm_specific_data mounts root false broken fs).trace
        = [StageCall.removeStage ["mnt/*", "tmp/*", "root/*", "dev/*", "proc/*"],
           StageCall.overwriteStage
             ["root/.bash_history", "var/log/auth.log",
              "var/log/boot.log", "var/log/daemon.log",
              "var/log/denyhosts.log", "var/log/dmesg",
              "var/log/secure", "var/log/messages",
              "var/log/lastlog", "var/log/cups/access_log",
              "var/log/cups/error_log", "var/log/syslog",
              "var/log/user.log", "var/log/wtmp",
              "var/log/apache2/access.log",
              "var/log/apache2/error.log",
              "var/log/yum.log"],
           StageCall.removeLineStage [], StageCall.replaceLineStage [],
           StageCall.multilineStage []] := by
  have hb : (!(check_mounted mounts root)) = false := by rw [h]; rfl
  simp only [remove_vm_specific_data, hb, Bool.false_eq_true, if_false]
  exact ⟨perform_err _ _ _ _ _ _ _ _ _, perform_pyret _ _ _ _ _ _ _ _ _,
    perform_trace _ _ _ _ _ _ _ _ _⟩

/-- Witness for the amended C7 at a concrete mounted root with one failing
path. -/
theorem c7_run_completes_but_returns_none_witness :
    (remove_vm_specific_data ["/mnt/img"] "/mnt/img" false
        [["var", "log", "dmesg"]] [⟨["var", "log", "dmesg"], ["x"]⟩]).err = none :=
  (c7_run_completes_but_returns_none ["/mnt/img"] "/mnt/img"
    [["var", "log", "dmesg"]] [⟨["var", "log", "dmesg"], ["x"]⟩] (by decide)).1

/-- C8: `update_instance_metadata` swallows exactly one class of failure: when
`ex_set_metadata` raises, the call returns `{}` if the exception message
contains the substring `incapable of performing the request`, and re-raises
the exception unchanged otherwise. -/
theorem c8_metadata_error_swallowing (conn : Connection) (data : Metadata)
    (rep : Bool) (e : String)
    (h1 : conn.has_ex_set_metadata = true)
    (h2 : conn.ex_set_metadata_result = Except.error e) :
    (update_instance_metadata conn data rep).ret
      = if subOccurs "incapable of performing the request" e then Except.ok []
        else Except.error e := by
  unfold update_instance_metadata
  rw [h1, h2]
  by_cases hs : subOccurs "incapable of performing the request" e
  · simp [hs]
  · simp [hs]

/-- Witness for C8: a message containing the substring is swallowed into `{}`,
and one lacking it is re-raised. -/
theorem c8_metadata_error_swallowing_witness :
    (update_instance_metadata
        ⟨true, Except.error "backend incapable of performing the request now"⟩
        [] true).ret = Except.ok []
      ∧ (update_instance_metadata
          ⟨true, Except.error "quota exceeded"⟩ [] true).ret
        = Except.error "quota exceeded" := by
  constructor
  · rw [c8_metadata_error_swallowing _ [] true
      "backend incapable of performing the request now" rfl rfl]
    decide
  · rw [c8_metadata_error_swallowing _ [] true "quota exceeded" rfl rfl]
    decide

/-- C9: on a mounted path, `remove_user_data` hands the overwrite stage a list
holding exactly one spec — the empty relative path — so the overwrite
primitive's sole target, root joined with the empty string, is the mount root
itself rather than no target at all. -/
theorem c9_user_overwrite_list_is_root (mounts : List String) (root : String)
    (dry : Bool) (broken : List Path) (fs : Fs)
    (h : check_mounted mounts root = true) :
    (remove_user_data mounts root dry broken fs).trace
        = [StageCall.removeStage ["home/*"],
           StageCall.overwriteStage [""],
           StageCall.removeLineStage [],
           StageCall.replaceLineStage
             [("users:x:100:.*", "users:x:100:", "etc/group"),
              ("AllowGroups users root.*", "", "etc/ssh/sshd_config")],
           StageCall.multilineStage []]
      ∧ List.map (joinPath root) [""] = [root] := by
  have hb : (!(check_mounted mounts root)) = false := by rw [h]; rfl
  constructor
  · simp only [remove_user_data, hb, Bool.false_eq_true, if_false]
    exact perform_trace _ _ _ _ _ _ _ _ _
  · simp [joinPath]

/-- Witness for C9 at a concrete mounted root. -/
theorem c9_user_overwrite_list_is_root_witness :
    List.map (joinPath "/mnt/img") [""] = ["/mnt/img"] :=
  (c9_user_overwrite_list_is_root ["/mnt/img"] "/mnt/img" false [] []
    (by decide)).2

/-- C10 counterexample: with data `{'name': ''}` — which does contain a `name`
key — `update_instance_metadata` never calls `ex_set_server_name` (the Python
truthiness test `if data.get('name')` rejects the empty string), refuting the
claim that every `name`-carrying data dictionary triggers the rename. -/
theorem c10_counterexample_empty_name_skips_rename :
    (update_instance_metadata ⟨true, Except.error "boom"⟩
        [("name", "")] true).calls
        = [DriverCall.setMetadata [("name", "")] true]
      ∧ (update_instance_metadata ⟨true, Except.error "boom"⟩
          [("name", "")] true).ret = Except.error "boom" := by
  decide

/-- C10 as amended: when the `name` value is truthy (non-empty), the rename is
issued before `ex_set_metadata`, and when `ex_set_metadata` then fails the
rename is not rolled back — the call returns `{}` or re-raises with the
`setServerName` call already in the call sequence. -/
theorem c10_rename_first_no_rollback (conn : Connection) (data : Metadata)
    (rep : Bool) (n e : String)
    (h1 : conn.has_ex_set_metadata = true)
    (h2 : dataGet data "name" = some n) (h3 : ¬(n = ""))
    (h4 : conn.ex_set_metadata_result = Except.error e) :
    (update_instance_metadata conn data rep).calls
        = [DriverCall.setServerName n, DriverCall.setMetadata data rep]
      ∧ ((update_instance_metadata conn data rep).ret = Except.ok []
          ∨ (update_instance_metadata conn data rep).ret = Except.error e) := by
  unfold update_instance_metadata
  rw [h1, h2, h4]
  simp only [Bool.not_true, Bool.false_eq_true, if_false, if_neg h3]
  by_cases hs : subOccurs "incapable of performing the request" e
  · exact ⟨by simp [hs], Or.inl (by simp [hs])⟩
  · exact ⟨by simp [hs], Or.inr (by simp [hs])⟩

/-- Witness for the amended C10: a non-empty name with a non-ignorable failure
leaves the rename in the call sequence and re-raises the error. -/
theorem c10_rename_first_no_rollback_witness :
    (update_instance_metadata ⟨true, Except.error "boom"⟩
        [("name", "vm1")] true).calls
        = [DriverCall.setServerName "vm1",
           DriverCall.setMetadata [("name", "vm1")] true]
      ∧ ((update_instance_metadata ⟨true, Except.error "boom"⟩
            [("name", "vm1")] true).ret = Except.ok []
          ∨ (update_instance_metadata ⟨true, Except.error "boom"⟩
              [("name", "vm1")] true).ret = Except.error "boom") :=
  c10_rename_first_no_rollback ⟨true, Except.error "boom"⟩ [("name", "vm1")]
    true "vm1" "boom" rfl (by decide) (by decide) rfl

end Atmosphere
